import Mathlib

/-
  Verification development for the NOTEBOOK-LMS interactive execution core
  (src/server.py, class NotebookServer and the process-wide settings).

  The embedding mirrors the Python source:
  * `Value`, `Expr`, `Stmt` model the fragment of Python relevant to the
    execution engine: integer/string arithmetic, name lookup and binding,
    `print` calls, `plt.plot` calls, division (raising on zero) — code
    snippets are modelled as already-parsed statement lists, with a
    `malformed` constructor standing for sources on which `ast.parse`
    raises.
  * The output buffer (`io.StringIO` under `redirect_stdout`) is modelled
    as a list of `Piece`s; `renderBuf` flattens it to the HTML string the
    server returns.  Raw stdout is inserted unescaped (as in the source);
    evaluated reprs and tracebacks are HTML-escaped at render time.
  * `runCell` mirrors server.py lines 212-224 (trailing bare-expression
    auto-display), `figStep` lines 225-232 (figure capture and reset),
    `executeCellPieces` the whole try/except body including the
    `buf.truncate(0)` on failure, and `NotebookServer.execute` lines
    201-239 including the session lookup.
  * `ServerState` holds the session registry (`self.sessions`), the global
    matplotlib current-figure state (`plt.gcf()` axes), and the
    process-wide `global_settings["enable_autocomplete"]` flag.
  * `handleMessageWith` mirrors `handle_message` (lines 166-199); it is
    parametrised by the completion provider so that "the provider is not
    invoked when the flag is off" can be stated as provider-independence.
-/

namespace NotebookLMS

/-- A runtime value of the modelled Python fragment: integers, strings,
pandas DataFrames (integer cells), `None`, and module handles such as the
`plt`/`pd` capability handles seeded into every session namespace. -/
inductive Value where
  | int (n : ℤ)
  | str (s : String)
  | df (rows : List (List ℤ))
  | none
  | module (name : String)
  deriving DecidableEq, Repr

/-- Python `str(value)` for the modelled values.  The DataFrame and module
cases are stand-ins for pandas reprs, which are external to the repo. -/
def pyStr : Value → String
  | .int n => toString n
  | .str s => s
  | .df rows => toString rows
  | .none => "None"
  | .module name => "<module " ++ name ++ ">"

/-- One character of `html.escape` (quote=True): the five characters
escaped by the Python standard library.  The two quote characters are
written by code point (34 is the double quote, 39 the single quote). -/
def escapeChar (c : Char) : String :=
  if c = '&' then "&amp;"
  else if c = '<' then "&lt;"
  else if c = '>' then "&gt;"
  else if c = Char.ofNat 34 then "&quot;"
  else if c = Char.ofNat 39 then "&#x27;"
  else String.singleton c

/-- `html.escape` from the Python standard library, as used at server.py
lines 222 and 238. -/
def escapeHtml (s : String) : String :=
  String.join (s.toList.map escapeChar)

/-- A session namespace: the `locals` dict, an ordered association list of
bindings. -/
abbrev Namespace := List (String × Value)

/-- Dict assignment `ns[x] = v`: replaces the binding in place if the key
exists, otherwise appends it (Python dict insertion order). -/
def nsSet : Namespace → String → Value → Namespace
  | [], x, v => [(x, v)]
  | (y, w) :: t, x, v => if y = x then (x, v) :: t else (y, w) :: nsSet t x v

/-- The fresh namespace every session starts with: `{'plt': plt, 'pd': pd}`
(server.py line 156). -/
def initialLocals : Namespace :=
  [("plt", Value.module "plt"), ("pd", Value.module "pd")]

/-- One write into the output buffer `buf`: raw captured stdout, the
escaped repr of an auto-displayed value, a DataFrame rendered via
`to_html`, the embedded base64 PNG image tag, or the escaped error
traceback div. -/
inductive Piece where
  | out (s : String)
  | val (s : String)
  | table (rows : List (List ℤ))
  | img (axes : List (List ℤ))
  | err (tb : String)
  deriving DecidableEq, Repr

/-- Whether a piece is raw captured stdout. -/
def Piece.isOut : Piece → Bool
  | .out _ => true
  | _ => false

/-- Whether a piece is an embedded figure image tag. -/
def Piece.isImg : Piece → Bool
  | .img _ => true
  | _ => false

/-- Whether a piece is an auto-displayed value rendering (escaped repr or
DataFrame table). -/
def Piece.isDisplay : Piece → Bool
  | .val _ => true
  | .table _ => true
  | _ => false

/-- Modelled from the spec: `DataFrame.to_html` (pandas is external to the
repo); "if the evaluated value is tabular, render it as an HTML table". -/
def dfToHtml (rows : List (List ℤ)) : String :=
  "<table>" ++
    String.join (rows.map (fun r =>
      "<tr>" ++ String.join (r.map (fun c => "<td>" ++ toString c ++ "</td>")) ++ "</tr>")) ++
  "</table>"

/-- Modelled from the spec: the base64 text of the PNG produced by
`fig.savefig` + `base64.b64encode` (matplotlib is external to the repo);
a stand-in encoding of the figure contents. -/
def figPng (axes : List (List ℤ)) : String :=
  toString axes

/-- Renders one buffer piece to the HTML text the server emits for it,
following server.py lines 220, 222, 232 and 238. -/
def renderPiece : Piece → String
  | .out s => s
  | .val s => escapeHtml s
  | .table rows => dfToHtml rows
  | .img axes => "<img src=\"data:image/png;base64," ++ figPng axes ++ "\"><br>"
  | .err tb => "<div class=\"error\">" ++ escapeHtml tb ++ "</div>"

/-- `buf.getvalue()`: the concatenated rendering of the buffer pieces. -/
def renderBuf : List Piece → String
  | [] => ""
  | p :: ps => renderPiece p ++ renderBuf ps

/-- Expressions of the modelled Python fragment.  `printE` is a call to
`print` (an expression in Python), `plotE` a call to `plt.plot` with a
literal data series (also an expression; it mutates the global figure and
evaluates to `None` here).  `div` is integer division, raising
ZeroDivisionError on a zero divisor exactly as Python division does. -/
inductive Expr where
  | const (v : Value)
  | var (x : String)
  | add (a b : Expr)
  | div (a b : Expr)
  | printE (e : Expr)
  | plotE (data : List ℤ)
  deriving DecidableEq, Repr

/-- Statements: an assignment `x = e` (`ast.Assign`), or a bare expression
statement (`ast.Expr`). -/
inductive Stmt where
  | assign (x : String) (e : Expr)
  | exprStmt (e : Expr)
  deriving DecidableEq, Repr

/-- A source snippet as handed to `ast.parse`: either a source that parses
to the given statement list, or one on which `ast.parse` raises with the
given message. -/
inductive Code where
  | ok (stmts : List Stmt)
  | malformed (msg : String)
  deriving DecidableEq, Repr

/-- `ast.parse` (server.py line 212): yields the statement sequence or
raises a SyntaxError. -/
def parse : Code → Except String (List Stmt)
  | .ok stmts => .ok stmts
  | .malformed m => .error ("SyntaxError: " ++ m)

/-- The state threaded through one execution: the session namespace
(`session_locals`), the global current-figure axes (`plt.gcf().axes`), and
the output buffer `buf`. -/
structure ExecSt where
  ns : Namespace
  fig : List (List ℤ)
  buf : List Piece
  deriving DecidableEq, Repr

/-- Evaluates an expression.  Effects (stdout writes from `print`, figure
mutations from `plt.plot`) performed before a fault persist in the
returned state, as they do in Python. -/
def evalExpr : Expr → ExecSt → ExecSt × Except String Value
  | .const v, st => (st, .ok v)
  | .var x, st =>
      match st.ns.lookup x with
      | some v => (st, .ok v)
      | Option.none => (st, .error ("NameError: name " ++ x ++ " is not defined"))
  | .add a b, st =>
      match evalExpr a st with
      | (st1, .error tb) => (st1, .error tb)
      | (st1, .ok va) =>
        match evalExpr b st1 with
        | (st2, .error tb) => (st2, .error tb)
        | (st2, .ok vb) =>
          match va, vb with
          | .int m, .int n => (st2, .ok (.int (m + n)))
          | .str s, .str t => (st2, .ok (.str (s ++ t)))
          | _, _ => (st2, .error "TypeError: unsupported operand type for +")
  | .div a b, st =>
      match evalExpr a st with
      | (st1, .error tb) => (st1, .error tb)
      | (st1, .ok va) =>
        match evalExpr b st1 with
        | (st2, .error tb) => (st2, .error tb)
        | (st2, .ok vb) =>
          match va, vb with
          | .int m, .int n =>
            if n = 0 then (st2, .error "ZeroDivisionError: division by zero")
            else (st2, .ok (.int (Int.fdiv m n)))
          | _, _ => (st2, .error "TypeError: unsupported operand type for division")
  | .printE e, st =>
      match evalExpr e st with
      | (st1, .error tb) => (st1, .error tb)
      | (st1, .ok v) =>
        ({ st1 with buf := st1.buf ++ [Piece.out (pyStr v ++ "\n")] }, .ok Value.none)
  | .plotE data, st =>
      ({ st with fig := st.fig ++ [data] }, .ok Value.none)

/-- Executes one statement; a fault propagates with the state already
mutated up to the fault point. -/
def runStmt : Stmt → ExecSt → ExecSt × Option String
  | .assign x e, st =>
      match evalExpr e st with
      | (st1, .error tb) => (st1, some tb)
      | (st1, .ok v) => ({ st1 with ns := nsSet st1.ns x v }, Option.none)
  | .exprStmt e, st =>
      match evalExpr e st with
      | (st1, .error tb) => (st1, some tb)
      | (st1, .ok _) => (st1, Option.none)

/-- `exec` of a statement sequence against the namespace: statements run
in order, stopping at the first fault; mutations before the fault
persist. -/
def runStmts : List Stmt → ExecSt → ExecSt × Option String
  | [], st => (st, Option.none)
  | s :: rest, st =>
      match runStmt s st with
      | (st1, some tb) => (st1, some tb)
      | (st1, Option.none) => runStmts rest st1

/-- The auto-display rule for the evaluated trailing value (server.py
lines 219-222): a DataFrame becomes a table piece, `None` displays
nothing, any other value its (escaped-at-render) repr piece. -/
def displayPieces : Value → List Piece
  | .df rows => [Piece.table rows]
  | .none => []
  | v => [Piece.val (pyStr v)]

/-- Whether the last statement of a block is a bare expression — the
`tree.body and isinstance(tree.body[-1], ast.Expr)` test of line 213. -/
def lastIsExpr (stmts : List Stmt) : Bool :=
  match stmts.getLast? with
  | some (.exprStmt _) => true
  | _ => false

/-- The statement-dispatch of the try block (server.py lines 213-224): if
the last statement is a bare expression, execute the preceding statements
(only when there are any — the `len(tree.body) > 1` guard), then evaluate
the final expression and append its display pieces; otherwise execute the
whole block. -/
def runCell (stmts : List Stmt) (st : ExecSt) : ExecSt × Option String :=
  match stmts.getLast? with
  | some (.exprStmt e) =>
      match (if 1 < stmts.length then runStmts stmts.dropLast st else (st, Option.none)) with
      | (st1, some tb) => (st1, some tb)
      | (st1, Option.none) =>
        match evalExpr e st1 with
        | (st2, .error tb) => (st2, some tb)
        | (st2, .ok v) => ({ st2 with buf := st2.buf ++ displayPieces v }, Option.none)
  | _ => runStmts stmts st

/-- The figure step (server.py lines 225-232): if the global figure has
axes, append its base64 PNG image tag to the buffer and close the figure
(so `plt.gcf()` starts blank next time); otherwise leave everything
alone. -/
def figStep (st : ExecSt) : ExecSt :=
  if st.fig = [] then st
  else { st with buf := st.buf ++ [Piece.img st.fig], fig := [] }

/-- Parse then dispatch (lines 212-224), before the figure step. -/
def runParsed (code : Code) (st : ExecSt) : ExecSt × Option String :=
  match parse code with
  | .error tb => (st, some tb)
  | .ok stmts => runCell stmts st

/-- The whole try body: parse, dispatch, then the figure step (which runs
only when no fault occurred — it sits inside the same try block). -/
def cellBody (code : Code) (st : ExecSt) : ExecSt × Option String :=
  match runParsed code st with
  | (st1, some tb) => (st1, some tb)
  | (st1, Option.none) => (figStep st1, Option.none)

/-- The try/except of `execute` at the buffer-piece level: on a fault the
buffer is truncated (`buf.truncate(0); buf.seek(0)`) and only the escaped
traceback div remains; namespace and figure keep the mutations made
before the fault point. -/
def executeCellPieces (code : Code) (ns : Namespace) (fig : List (List ℤ)) :
    Namespace × List (List ℤ) × List Piece :=
  match cellBody code ⟨ns, fig, []⟩ with
  | (st1, some tb) => (st1.ns, st1.fig, [Piece.err tb])
  | (st1, Option.none) => (st1.ns, st1.fig, st1.buf)

/-- The execution engine on one namespace: returns the mutated namespace,
the mutated global figure state, and `buf.getvalue()`. -/
def executeCell (code : Code) (ns : Namespace) (fig : List (List ℤ)) :
    Namespace × List (List ℤ) × String :=
  match executeCellPieces code ns fig with
  | (ns1, fig1, ps) => (ns1, fig1, renderBuf ps)

/-- One registry entry (server.py lines 154-158): the session's `locals`
namespace and its stored websocket channel (channels are identified by a
number here). -/
structure Session where
  locals : Namespace
  websocket : Option ℕ
  deriving DecidableEq, Repr

/-- The process state: `self.sessions`, the global matplotlib figure, and
`global_settings["enable_autocomplete"]`. -/
structure ServerState where
  sessions : List (String × Session)
  fig : List (List ℤ)
  enableAutocomplete : Bool
  deriving DecidableEq, Repr

/-- The fixed fragment returned for an unknown session (server.py
line 205). -/
def sessionExpiredFragment : String :=
  "<div class=\"error\">Session expired. Please refresh.</div>"

/-- In-place update of the registry entry for a key: replaces the value at
the existing binding, appending only if the key is absent. -/
def setSession : List (String × Session) → String → Session → List (String × Session)
  | [], x, v => [(x, v)]
  | (y, w) :: t, x, v => if y = x then (x, v) :: t else (y, w) :: setSession t x v

/-- The initial value of `global_settings["enable_autocomplete"]`
(server.py lines 45-47). -/
def globalSettingsDefault : Bool := true

/-- The process state at startup: no sessions, a blank global figure, the
default feature flag. -/
def initialServerState : ServerState :=
  { sessions := [], fig := [], enableAutocomplete := globalSettingsDefault }

/-- `NotebookServer.connect` (lines 151-159): accepts the channel and
creates a fresh seeded entry only when the session id is not already
registered; an existing entry is left untouched (the new channel is not
recorded). -/
def NotebookServer.connect (st : ServerState) (ws : ℕ) (sid : String) : ServerState :=
  if (st.sessions.lookup sid).isSome then st
  else { st with
          sessions := st.sessions ++ [(sid, { locals := initialLocals, websocket := some ws })] }

/-- `NotebookServer.disconnect` (lines 161-164): deletes the registry
entry for the id, if present. -/
def NotebookServer.disconnect (st : ServerState) (sid : String) : ServerState :=
  { st with sessions := st.sessions.eraseP (fun p => p.1 == sid) }

/-- `NotebookServer.execute` (lines 201-239): resolves the session (never
creating one — `dict.get` does not insert), returns the fixed expired
fragment when absent, otherwise runs the cell against the session's
namespace (mutated in place) and the global figure. -/
def NotebookServer.execute (st : ServerState) (sid : String) (code : Code) :
    ServerState × String :=
  match st.sessions.lookup sid with
  | Option.none => (st, sessionExpiredFragment)
  | some sess =>
      match executeCell code sess.locals st.fig with
      | (ns1, fig1, frag) =>
        ({ st with
            sessions := setSession st.sessions sid { sess with locals := ns1 },
            fig := fig1 },
         frag)

/-- Modelled from the spec: the Completion Provider (`jedi.Interpreter`,
an external library) — "static/introspective analysis of `code` combined
with live bindings already present in `namespace`", suggestions in
provider relevance order.  Stand-in: the names bound in the namespace, in
binding order. -/
def completionProvider (ns : Namespace) (code : String) (line col : ℕ) : List String :=
  let _ := code
  let _ := line
  let _ := col
  ns.map Prod.fst

/-- `NotebookServer.get_completions` (lines 241-251), parametrised by the
completion provider: an unknown session, or an empty (falsy) locals dict,
yields the empty list; otherwise the provider runs on the session's live
namespace. -/
def getCompletionsWith (provider : Namespace → String → ℕ → ℕ → List String)
    (st : ServerState) (sid : String) (code : String) (line col : ℕ) : List String :=
  match st.sessions.lookup sid with
  | Option.none => []
  | some sess =>
      if sess.locals.isEmpty then [] else provider sess.locals code line col

/-- `NotebookServer.get_completions` with the modelled jedi provider. -/
def NotebookServer.getCompletions (st : ServerState) (sid : String) (code : String)
    (line col : ℕ) : List String :=
  getCompletionsWith completionProvider st sid code line col

/-- An inbound protocol message (the `type` discriminator plus payload
fields); `other` covers every well-formed message whose type matches no
handler branch. -/
inductive InMsg where
  | runCode (cellId : ℕ) (code : Code)
  | getCompletions (requestId : ℕ) (code : String) (line col : ℕ)
  | applyDesign (sessionId : String) (html : String)
  | other (t : String)
  deriving DecidableEq, Repr

/-- An outbound protocol message as sent by `send_json`. -/
inductive OutMsg where
  | output (cellId : ℕ) (output : String)
  | completions (requestId : ℕ) (completions : List String)
  | designApplied (html : String)
  deriving DecidableEq, Repr

/-- `NotebookServer.handle_message` (lines 166-199), parametrised by the
completion provider; `ws` is the connection's own channel.  Returns the
new process state and the list of (channel, message) sends performed.
`run_code` executes the cell and replies on the caller's channel tagged
with its `cell_id`; `get_completions` consults the flag before the
provider; `apply_design` forwards the payload to the target session's
stored channel when one is found, and otherwise silently does nothing; an
unmatched type falls through every branch and does nothing. -/
def handleMessageWith (provider : Namespace → String → ℕ → ℕ → List String)
    (st : ServerState) (ws : ℕ) (sid : String) (msg : InMsg) :
    ServerState × List (ℕ × OutMsg) :=
  match msg with
  | .runCode cellId code =>
      match NotebookServer.execute st sid code with
      | (st1, out) => (st1, [(ws, OutMsg.output cellId out)])
  | .getCompletions reqId code line col =>
      let comps :=
        if st.enableAutocomplete = false then []
        else getCompletionsWith provider st sid code line col
      (st, [(ws, OutMsg.completions reqId comps)])
  | .applyDesign targetSid html =>
      match (st.sessions.lookup targetSid).bind Session.websocket with
      | some targetWs => (st, [(targetWs, OutMsg.designApplied html)])
      | Option.none => (st, [])
  | .other _ => (st, [])

/-- `handle_message` with the modelled jedi provider. -/
def handleMessage (st : ServerState) (ws : ℕ) (sid : String) (msg : InMsg) :
    ServerState × List (ℕ × OutMsg) :=
  handleMessageWith completionProvider st ws sid msg

/-- The `/api/teacher/settings` update (server.py lines 614-615): plain
assignment into the process-wide flag. -/
def updateSettings (st : ServerState) (b : Bool) : ServerState :=
  { st with enableAutocomplete := b }

/-- The snippet `print("a")` followed by the bare expression `1/0`: two
expression statements, the second raising ZeroDivisionError. -/
def c2code : Code :=
  Code.ok [Stmt.exprStmt (Expr.printE (Expr.const (Value.str "a"))),
           Stmt.exprStmt (Expr.div (Expr.const (Value.int 1)) (Expr.const (Value.int 0)))]

/-- A fresh server with one session "s" connected on channel 7. -/
def c2state : ServerState := NotebookServer.connect initialServerState 7 "s"

/-- A fresh server with one session "s" connected on channel 0. -/
def st0c4 : ServerState := NotebookServer.connect initialServerState 0 "s"

/-- The state after running `x = 5` in session "s". -/
def st1c4 : ServerState :=
  (NotebookServer.execute st0c4 "s" (Code.ok [Stmt.assign "x" (Expr.const (Value.int 5))])).1

/-- The state after then running the bare expression `x` in session "s". -/
def st2c4 : ServerState :=
  (NotebookServer.execute st1c4 "s" (Code.ok [Stmt.exprStmt (Expr.var "x")])).1

/-- A fresh server with one session "s" connected on channel 3. -/
def stW6 : ServerState := NotebookServer.connect initialServerState 3 "s"

/-- A fresh server with one session "s" connected on channel 1. -/
def stW9 : ServerState := NotebookServer.connect initialServerState 1 "s"

/-- A cell that only draws a plot: the bare call `plt.plot([1, 2])`. -/
def plotCellC7 : Code := Code.ok [Stmt.exprStmt (Expr.plotE [1, 2])]

/-
  Model of the unsynchronized concurrent `run_code` dispatch.  At
  server.py lines 171-174 `handle_message` hands `self.execute` to the
  shared default thread-pool executor with no per-session lock, so two
  connections registered under the same session id can run `execute`
  concurrently against the same `locals` dict.  Under CPython, `exec`
  of `c = c + 1` decomposes into a load of `c` followed by a store of
  `c`, and the interpreter may switch threads between the two; the model
  below exposes exactly that read/write granularity for two such
  executions, sharing one counter.
-/

/-- Shared state of the two concurrent increment executions: the `c`
binding of the shared session namespace, plus each thread's private
register holding the value it loaded. -/
structure RaceState where
  counter : ℤ
  reg1 : Option ℤ
  reg2 : Option ℤ
  deriving DecidableEq, Repr

/-- One interpreter step of either thread: loading `c` into the thread's
register, or storing the incremented register back into `c`. -/
inductive RaceStep where
  | read1 | write1 | read2 | write2
  deriving DecidableEq, Repr

/-- Effect of one step on the shared state. -/
def raceStep : RaceStep → RaceState → RaceState
  | .read1, s => { s with reg1 := some s.counter }
  | .write1, s => { s with counter := s.reg1.getD 0 + 1 }
  | .read2, s => { s with reg2 := some s.counter }
  | .write2, s => { s with counter := s.reg2.getD 0 + 1 }

/-- Runs a thread interleaving (a schedule of steps) from a state. -/
def runRace (steps : List RaceStep) (s : RaceState) : RaceState :=
  match steps with
  | [] => s
  | step :: rest => runRace rest (raceStep step s)

/-- The shared state before either execution starts, with `c = 0`. -/
def raceInit : RaceState := { counter := 0, reg1 := Option.none, reg2 := Option.none }

/-- The interleaving in which both threads load `c` before either stores:
permitted because no lock orders them. -/
def raceLost : List RaceStep := [RaceStep.read1, RaceStep.read2, RaceStep.write1, RaceStep.write2]

/-- The serialized schedule the claim requires: thread 1 completes before
thread 2 starts. -/
def raceSerial : List RaceStep := [RaceStep.read1, RaceStep.write1, RaceStep.read2, RaceStep.write2]

/-- The increment cell `c = c + 1`. -/
def incCell : Code := Code.ok [Stmt.assign "c" (Expr.add (Expr.var "c") (Expr.const (Value.int 1)))]

/-- A server with session "s" whose namespace already binds `c = 0`. -/
def stC8 : ServerState :=
  (NotebookServer.execute (NotebookServer.connect initialServerState 0 "s") "s"
    (Code.ok [Stmt.assign "c" (Expr.const (Value.int 0))])).1

/-! ### Helper lemmas -/

/-- Updating the registry entry of one session id leaves the lookup of
every other id unchanged. -/
theorem lookup_setSession_ne (l : List (String × Session)) (sid sid' : String)
    (s : Session) (h : sid' ≠ sid) :
    (setSession l sid s).lookup sid' = l.lookup sid' := by
  induction l with
  | nil =>
      have hb : (sid' == sid) = false := beq_eq_false_iff_ne.mpr h
      simp [setSession, List.lookup, hb]
  | cons hd tl ih =>
      obtain ⟨y, w⟩ := hd
      by_cases hy : y = sid
      · subst hy
        have hb : (sid' == y) = false := beq_eq_false_iff_ne.mpr h
        simp [setSession, List.lookup, hb]
      · simp only [setSession, if_neg hy]
        by_cases hc : sid' = y
        · subst hc
          simp [List.lookup]
        · have hb : (sid' == y) = false := beq_eq_false_iff_ne.mpr hc
          simp [List.lookup, hb, ih]

/-- Expression evaluation appends only raw-stdout pieces to the buffer:
any piece predicate that holds on stdout pieces is preserved by it. -/
theorem evalExpr_buf_all (q : Piece → Bool) (hq : ∀ s, q (Piece.out s) = true)
    (e : Expr) (st : ExecSt) :
    ((evalExpr e st).1.buf.all q) = st.buf.all q := by
  induction e generalizing st with
  | const v => rfl
  | var x =>
      simp only [evalExpr]
      cases st.ns.lookup x <;> rfl
  | add a b iha ihb =>
      rcases ha : evalExpr a st with ⟨st1, r1⟩
      have h1 : st1.buf.all q = st.buf.all q := by
        have := iha st
        rw [ha] at this
        exact this
      cases r1 with
      | error tb =>
          simp only [evalExpr, ha]
          exact h1
      | ok va =>
          rcases hb : evalExpr b st1 with ⟨st2, r2⟩
          have h2 : st2.buf.all q = st.buf.all q := by
            have := ihb st1
            rw [hb] at this
            exact this.trans h1
          cases r2 with
          | error tb =>
              simp only [evalExpr, ha, hb]
              exact h2
          | ok vb =>
              cases va <;> cases vb <;> simp only [evalExpr, ha, hb] <;> exact h2
  | div a b iha ihb =>
      rcases ha : evalExpr a st with ⟨st1, r1⟩
      have h1 : st1.buf.all q = st.buf.all q := by
        have := iha st
        rw [ha] at this
        exact this
      cases r1 with
      | error tb =>
          simp only [evalExpr, ha]
          exact h1
      | ok va =>
          rcases hb : evalExpr b st1 with ⟨st2, r2⟩
          have h2 : st2.buf.all q = st.buf.all q := by
            have := ihb st1
            rw [hb] at this
            exact this.trans h1
          cases r2 with
          | error tb =>
              simp only [evalExpr, ha, hb]
              exact h2
          | ok vb =>
              cases va <;> cases vb <;> simp only [evalExpr, ha, hb] <;>
                first
                  | exact h2
                  | (split <;> exact h2)
  | printE e ih =>
      rcases ha : evalExpr e st with ⟨st1, r1⟩
      have h1 : st1.buf.all q = st.buf.all q := by
        have := ih st
        rw [ha] at this
        exact this
      cases r1 with
      | error tb =>
          simp only [evalExpr, ha]
          exact h1
      | ok v =>
          simp only [evalExpr, ha]
          simp [List.all_append, hq, h1]
  | plotE data => rfl

/-- Statement execution appends only raw-stdout pieces to the buffer. -/
theorem runStmt_buf_all (q : Piece → Bool) (hq : ∀ s, q (Piece.out s) = true)
    (s : Stmt) (st : ExecSt) :
    ((runStmt s st).1.buf.all q) = st.buf.all q := by
  cases s with
  | assign x e =>
      rcases ha : evalExpr e st with ⟨st1, r1⟩
      have h1 : st1.buf.all q = st.buf.all q := by
        have := evalExpr_buf_all q hq e st
        rw [ha] at this
        exact this
      cases r1 <;> simp only [runStmt, ha] <;> exact h1
  | exprStmt e =>
      rcases ha : evalExpr e st with ⟨st1, r1⟩
      have h1 : st1.buf.all q = st.buf.all q := by
        have := evalExpr_buf_all q hq e st
        rw [ha] at this
        exact this
      cases r1 <;> simp only [runStmt, ha] <;> exact h1

/-- Block execution appends only raw-stdout pieces to the buffer. -/
theorem runStmts_buf_all (q : Piece → Bool) (hq : ∀ s, q (Piece.out s) = true)
    (l : List Stmt) (st : ExecSt) :
    ((runStmts l st).1.buf.all q) = st.buf.all q := by
  induction l generalizing st with
  | nil => rfl
  | cons s rest ih =>
      rcases hs : runStmt s st with ⟨st1, r1⟩
      have h1 : st1.buf.all q = st.buf.all q := by
        have := runStmt_buf_all q hq s st
        rw [hs] at this
        exact this
      cases r1 with
      | some tb =>
          simp only [runStmts, hs]
          exact h1
      | none =>
          simp only [runStmts, hs]
          rw [ih st1, h1]

/-- The cell dispatch appends only stdout, value-repr and table pieces to
the buffer: any piece predicate holding on those three kinds is
preserved. -/
theorem runCell_buf_all (q : Piece → Bool) (hqo : ∀ s, q (Piece.out s) = true)
    (hqv : ∀ s, q (Piece.val s) = true) (hqt : ∀ r, q (Piece.table r) = true)
    (stmts : List Stmt) (st : ExecSt) :
    ((runCell stmts st).1.buf.all q) = st.buf.all q := by
  cases hl : stmts.getLast? with
  | none =>
      simp only [runCell, hl]
      exact runStmts_buf_all q hqo stmts st
  | some s =>
      cases s with
      | assign x e =>
          simp only [runCell, hl]
          exact runStmts_buf_all q hqo stmts st
      | exprStmt e =>
          rcases hp : (if 1 < stmts.length then runStmts stmts.dropLast st
                       else (st, Option.none)) with ⟨st1, r1⟩
          have h1 : st1.buf.all q = st.buf.all q := by
            by_cases hlen : 1 < stmts.length
            · rw [if_pos hlen] at hp
              have := runStmts_buf_all q hqo stmts.dropLast st
              rw [hp] at this
              exact this
            · rw [if_neg hlen] at hp
              injection hp with hp1 hp2
              rw [← hp1]
          cases r1 with
          | some tb =>
              simp only [runCell, hl, hp]
              exact h1
          | none =>
              rcases he : evalExpr e st1 with ⟨st2, r2⟩
              have h2 : st2.buf.all q = st.buf.all q := by
                have := evalExpr_buf_all q hqo e st1
                rw [he] at this
                exact this.trans h1
              cases r2 with
              | error tb =>
                  simp only [runCell, hl, hp, he]
                  exact h2
              | ok v =>
                  simp only [runCell, hl, hp, he]
                  cases v <;>
                    simp [displayPieces, List.all_append, hqv, hqt, h2]

/-- Parsing plus dispatch appends only stdout, value-repr and table
pieces to the buffer. -/
theorem runParsed_buf_all (q : Piece → Bool) (hqo : ∀ s, q (Piece.out s) = true)
    (hqv : ∀ s, q (Piece.val s) = true) (hqt : ∀ r, q (Piece.table r) = true)
    (code : Code) (st : ExecSt) :
    ((runParsed code st).1.buf.all q) = st.buf.all q := by
  cases code with
  | ok stmts =>
      simpa [runParsed, parse] using runCell_buf_all q hqo hqv hqt stmts st
  | malformed m => rfl

/-- A piece list with no image pieces has image count zero. -/
theorem countP_isImg_zero (ps : List Piece)
    (h : ps.all (fun p => ! p.isImg) = true) :
    ps.countP Piece.isImg = 0 := by
  rw [List.countP_eq_zero]
  intro p hp
  have := List.all_eq_true.mp h p hp
  simpa using this

/-- The dispatch on a block whose last statement is a bare expression:
the preceding statements run first (the singleton case degenerating to a
no-op), then the final expression is evaluated and displayed. -/
theorem runCell_concat (ps : List Stmt) (e : Expr) (st : ExecSt) :
    runCell (ps ++ [Stmt.exprStmt e]) st =
      (match runStmts ps st with
       | (st1, some tb) => (st1, some tb)
       | (st1, Option.none) =>
         match evalExpr e st1 with
         | (st2, .error tb) => (st2, some tb)
         | (st2, .ok v) => ({ st2 with buf := st2.buf ++ displayPieces v }, Option.none)) := by
  unfold runCell
  rw [List.getLast?_concat, List.dropLast_concat]
  cases ps with
  | nil => simp [runStmts]
  | cons p ps' =>
      have hlen : 1 < (p :: ps' ++ [Stmt.exprStmt e]).length := by
        simp [List.length_append]
      rw [if_pos hlen]


/-! ### Claim theorems -/

/-- C10: a well-formed message whose type matches no handler branch is
handled by returning normally: nothing is sent, nothing is raised, and
the session registry, every namespace and the feature flag are all left
unchanged. -/
theorem unknown_message_type_C10 :
    ∀ (st : ServerState) (ws : ℕ) (sid t : String),
      handleMessage st ws sid (InMsg.other t) = (st, []) := by
  intro st ws sid t
  rfl

/-- C3: an unregistered session id makes `execute` return the fixed
session-expired fragment (no exception path) and `get_completions`
return the empty list, and neither creates a registry entry — the
returned server state is the input state. -/
theorem missing_session_C3 :
    ∀ (st : ServerState) (sid : String) (code : Code) (ccode : String) (line col : ℕ),
      st.sessions.lookup sid = Option.none →
      NotebookServer.execute st sid code = (st, sessionExpiredFragment) ∧
      NotebookServer.getCompletions st sid ccode line col = [] := by
  intro st sid code ccode line col h
  constructor
  · simp only [NotebookServer.execute, h]
  · simp only [NotebookServer.getCompletions, getCompletionsWith, h]

/-- Witness for C3 at the empty registry and session id "ghost". -/
theorem missing_session_C3_witness :
    (initialServerState.sessions.lookup "ghost" = Option.none) ∧
    (NotebookServer.execute initialServerState "ghost" (Code.ok []) =
       (initialServerState, sessionExpiredFragment) ∧
     NotebookServer.getCompletions initialServerState "ghost" "" 0 0 = []) :=
  ⟨by decide, missing_session_C3 initialServerState "ghost" (Code.ok []) "" 0 0 (by decide)⟩

/-- C6: `apply_design` with a registered target session holding a stored
channel sends exactly one `design_applied` message carrying the payload
unchanged to that channel; an unknown target, or one without a channel,
is silently dropped — no send, no state change, normal return. -/
theorem apply_design_C6 :
    ∀ (st : ServerState) (ws : ℕ) (sid targetSid html : String),
      (∀ (sess : Session) (tws : ℕ),
        st.sessions.lookup targetSid = some sess →
        sess.websocket = some tws →
        handleMessage st ws sid (InMsg.applyDesign targetSid html) =
          (st, [(tws, OutMsg.designApplied html)])) ∧
      ((st.sessions.lookup targetSid).bind Session.websocket = Option.none →
        handleMessage st ws sid (InMsg.applyDesign targetSid html) = (st, [])) := by
  intro st ws sid targetSid html
  constructor
  · intro sess tws h1 h2
    simp only [handleMessage, handleMessageWith, h1, Option.some_bind, h2]
  · intro h
    simp only [handleMessage, handleMessageWith, h]

/-- Witness for C6 at a registry with session "s" on channel 3. -/
theorem apply_design_C6_witness :
    (stW6.sessions.lookup "s" = some ⟨initialLocals, some 3⟩ ∧
     Session.websocket ⟨initialLocals, some 3⟩ = some 3) ∧
    handleMessage stW6 9 "other" (InMsg.applyDesign "s" "<b>x</b>") =
      (stW6, [(3, OutMsg.designApplied "<b>x</b>")]) :=
  ⟨⟨by decide, by decide⟩,
   (apply_design_C6 stW6 9 "other" "s" "<b>x</b>").1 ⟨initialLocals, some 3⟩ 3
     (by decide) (by decide)⟩

/-- C9: connecting a new channel under an already-registered session id
leaves the registry entry entirely unchanged — the namespace keeps its
accumulated bindings and the stored channel stays the one recorded at
first connect — so a later `apply_design` targeting that id is delivered
to the originally stored channel, not the newest one. -/
theorem reconnect_preserves_entry_C9 :
    ∀ (st : ServerState) (sid : String) (ws : ℕ) (sess : Session),
      st.sessions.lookup sid = some sess →
      NotebookServer.connect st ws sid = st ∧
      (∀ (ws0 ws2 : ℕ) (sid2 html : String),
        sess.websocket = some ws0 →
        handleMessage (NotebookServer.connect st ws sid) ws2 sid2
            (InMsg.applyDesign sid html) =
          (st, [(ws0, OutMsg.designApplied html)])) := by
  intro st sid ws sess h
  have hc : NotebookServer.connect st ws sid = st := by
    simp [NotebookServer.connect, h]
  refine ⟨hc, ?_⟩
  intro ws0 ws2 sid2 html h2
  rw [hc]
  simp only [handleMessage, handleMessageWith, h, Option.some_bind, h2]

/-- Witness for C9: session "s" first connected on channel 1; a second
connect on channel 2 changes nothing and a design still reaches 1. -/
theorem reconnect_preserves_entry_C9_witness :
    (stW9.sessions.lookup "s" = some ⟨initialLocals, some 1⟩ ∧
     Session.websocket ⟨initialLocals, some 1⟩ = some 1) ∧
    (NotebookServer.connect stW9 2 "s" = stW9 ∧
     handleMessage (NotebookServer.connect stW9 2 "s") 2 "s"
         (InMsg.applyDesign "s" "<p>d</p>") =
       (stW9, [(1, OutMsg.designApplied "<p>d</p>")])) :=
  ⟨⟨by decide, by decide⟩,
   ⟨(reconnect_preserves_entry_C9 stW9 "s" 2 ⟨initialLocals, some 1⟩ (by decide)).1,
    (reconnect_preserves_entry_C9 stW9 "s" 2 ⟨initialLocals, some 1⟩ (by decide)).2
      1 2 "s" "<p>d</p>" (by decide)⟩⟩

/-- C5: the autocomplete feature flag defaults to true; while the flag is
false a completion request is answered with the empty list and the
provider is not invoked (the reply is identical for every provider);
while it is true the provider runs on the session's live namespace; the
flag is re-read on each request, so a settings update takes immediate
effect on all subsequent requests. -/
theorem autocomplete_flag_C5 :
    (globalSettingsDefault = true ∧ initialServerState.enableAutocomplete = true) ∧
    (∀ (p : Namespace → String → ℕ → ℕ → List String) (st : ServerState)
       (ws : ℕ) (sid : String) (reqId : ℕ) (code : String) (line col : ℕ),
       st.enableAutocomplete = false →
       handleMessageWith p st ws sid (InMsg.getCompletions reqId code line col) =
         (st, [(ws, OutMsg.completions reqId [])])) ∧
    (∀ (p : Namespace → String → ℕ → ℕ → List String) (st : ServerState)
       (ws : ℕ) (sid : String) (reqId : ℕ) (code : String) (line col : ℕ),
       st.enableAutocomplete = true →
       handleMessageWith p st ws sid (InMsg.getCompletions reqId code line col) =
         (st, [(ws, OutMsg.completions reqId (getCompletionsWith p st sid code line col))])) ∧
    (∀ (st : ServerState) (b : Bool), (updateSettings st b).enableAutocomplete = b) := by
  refine ⟨⟨rfl, rfl⟩, ?_, ?_, fun st b => rfl⟩
  · intro p st ws sid reqId code line col h
    simp [handleMessageWith, h]
  · intro p st ws sid reqId code line col h
    simp [handleMessageWith, h]

/-- Witness for C5: with the flag just turned off, a completion request
is answered with the empty list. -/
theorem autocomplete_flag_C5_witness :
    ((updateSettings initialServerState false).enableAutocomplete = false) ∧
    handleMessageWith completionProvider (updateSettings initialServerState false) 0 "s"
        (InMsg.getCompletions 1 "x" 0 1) =
      (updateSettings initialServerState false, [(0, OutMsg.completions 1 [])]) :=
  ⟨by decide,
   autocomplete_flag_C5.2.1 completionProvider (updateSettings initialServerState false)
     0 "s" 1 "x" 0 1 (by decide)⟩

/-- C4: a binding produced by one successful execution is visible to
every later execution in the same session and to no other session —
`execute` leaves every other session's registry entry untouched, and
running `x = 5`, then `x`, then `x + 1` in one session yields the
fragments "5" and then "6". -/
theorem namespace_persistence_C4 :
    (∀ (st : ServerState) (sid : String) (code : Code) (sid' : String),
       sid' ≠ sid →
       (NotebookServer.execute st sid code).1.sessions.lookup sid' =
         st.sessions.lookup sid') ∧
    ((NotebookServer.execute st1c4 "s" (Code.ok [Stmt.exprStmt (Expr.var "x")])).2 = "5" ∧
     (NotebookServer.execute st2c4 "s"
        (Code.ok [Stmt.exprStmt (Expr.add (Expr.var "x") (Expr.const (Value.int 1)))])).2 =
       "6") := by
  constructor
  · intro st sid code sid' hne
    cases h : st.sessions.lookup sid with
    | none => simp only [NotebookServer.execute, h]
    | some sess =>
        rcases he : executeCell code sess.locals st.fig with ⟨ns1, fig1, frag⟩
        simp only [NotebookServer.execute, h, he]
        exact lookup_setSession_ne st.sessions sid sid' _ hne
  · constructor <;> decide

/-- Witness for C4 at a concrete pair of distinct session ids. -/
theorem namespace_persistence_C4_witness :
    ("t" ≠ "s") ∧
    ((NotebookServer.execute st0c4 "s"
        (Code.ok [Stmt.assign "x" (Expr.const (Value.int 5))])).1.sessions.lookup "t" =
      st0c4.sessions.lookup "t") :=
  ⟨by decide,
   namespace_persistence_C4.1 st0c4 "s" (Code.ok [Stmt.assign "x" (Expr.const (Value.int 5))])
     "t" (by decide)⟩

/-- C2: when parsing or execution raises, all output accumulated so far
(captured stdout included) is discarded and the returned fragment is
exactly the escaped error-trace div; the value and figure rendering
steps after the fault do not run, while the namespace and figure keep
whatever mutations happened before the fault. -/
theorem execute_error_discards_output_C2 :
    ∀ (st : ServerState) (sid : String) (sess : Session) (code : Code)
      (stP : ExecSt) (tb : String),
      st.sessions.lookup sid = some sess →
      runParsed code ⟨sess.locals, st.fig, []⟩ = (stP, some tb) →
      NotebookServer.execute st sid code =
        ({ st with
            sessions := setSession st.sessions sid { sess with locals := stP.ns },
            fig := stP.fig },
         "<div class=\"error\">" ++ escapeHtml tb ++ "</div>") := by
  intro st sid sess code stP tb h hrun
  simp only [NotebookServer.execute, h, executeCell, executeCellPieces, cellBody, hrun]
  simp [renderBuf, renderPiece]

/-- Witness for C2 on `print("a"); 1/0`: the run captures the stdout
piece "a" before faulting, yet the fragment is exactly the error div —
the output piece list is the error alone, the captured stdout piece
having been discarded. -/
theorem execute_error_discards_output_C2_witness :
    (c2state.sessions.lookup "s" = some ⟨initialLocals, some 7⟩ ∧
     runParsed c2code ⟨initialLocals, [], []⟩ =
       (⟨initialLocals, [], [Piece.out "a\n"]⟩, some "ZeroDivisionError: division by zero")) ∧
    NotebookServer.execute c2state "s" c2code =
      ({ c2state with
          sessions := setSession c2state.sessions "s" ⟨initialLocals, some 7⟩,
          fig := [] },
       "<div class=\"error\">" ++ escapeHtml "ZeroDivisionError: division by zero" ++ "</div>") ∧
    (executeCellPieces c2code initialLocals []).2.2 =
      [Piece.err "ZeroDivisionError: division by zero"] :=
  ⟨⟨by decide, by decide⟩,
   execute_error_discards_output_C2 c2state "s" ⟨initialLocals, some 7⟩ c2code
     ⟨initialLocals, [], [Piece.out "a\n"]⟩ "ZeroDivisionError: division by zero"
     (by decide) (by decide),
   by decide⟩

/-- C7: after a successful execution the global figure is always left
blank, and the output contains exactly one embedded image piece when the
run left the figure populated, and none otherwise — so an immediately
repeated plotting snippet again yields exactly one image, as the
concrete double-plot run shows. -/
theorem figure_reset_C7 :
    (∀ (code : Code) (ns : Namespace) (fig : List (List ℤ)) (st1 : ExecSt),
       runParsed code ⟨ns, fig, []⟩ = (st1, Option.none) →
       executeCellPieces code ns fig =
         (st1.ns, [], st1.buf ++ (if st1.fig = [] then [] else [Piece.img st1.fig])) ∧
       (executeCellPieces code ns fig).2.2.countP Piece.isImg =
         (if st1.fig = [] then 0 else 1)) ∧
    ((executeCellPieces plotCellC7 initialLocals []).2.2.countP Piece.isImg = 1 ∧
     (executeCellPieces plotCellC7
         (executeCellPieces plotCellC7 initialLocals []).1
         (executeCellPieces plotCellC7 initialLocals []).2.1).2.2.countP Piece.isImg = 1) := by
  constructor
  · intro code ns fig st1 hrun
    have himg : st1.buf.countP Piece.isImg = 0 := by
      have hall := runParsed_buf_all (fun p => ! p.isImg) (fun s => rfl) (fun s => rfl)
        (fun r => rfl) code ⟨ns, fig, []⟩
      rw [hrun] at hall
      exact countP_isImg_zero st1.buf (by simpa using hall)
    have heq : executeCellPieces code ns fig =
        (st1.ns, [], st1.buf ++ (if st1.fig = [] then [] else [Piece.img st1.fig])) := by
      simp only [executeCellPieces, cellBody, hrun]
      by_cases hf : st1.fig = []
      · simp [figStep, hf]
      · simp [figStep, hf]
    refine ⟨heq, ?_⟩
    rw [heq]
    by_cases hf : st1.fig = []
    · simp [hf, himg]
    · simp [hf, List.countP_append, himg, List.countP_cons, Piece.isImg]
  · constructor <;> decide

/-- Witness for C7 at the single-plot cell. -/
theorem figure_reset_C7_witness :
    (runParsed plotCellC7 ⟨initialLocals, [], []⟩ =
       (⟨initialLocals, [[1, 2]], []⟩, Option.none)) ∧
    (executeCellPieces plotCellC7 initialLocals [] =
       (initialLocals, [],
        [] ++ (if ([[(1 : ℤ), 2]] : List (List ℤ)) = [] then [] else [Piece.img [[1, 2]]])) ∧
     (executeCellPieces plotCellC7 initialLocals []).2.2.countP Piece.isImg =
       (if ([[(1 : ℤ), 2]] : List (List ℤ)) = [] then 0 else 1)) :=
  ⟨by decide,
   figure_reset_C7.1 plotCellC7 initialLocals [] ⟨initialLocals, [[1, 2]], []⟩ (by decide)⟩

/-- C1: `execute` parses the code into a statement sequence; when the
last statement is a bare expression the preceding statements run against
the namespace (mutating it) and the final expression is then evaluated
in that same namespace — a DataFrame rendering as an HTML table, any
other non-None value as its HTML-escaped textual representation, and
None rendering nothing; when there is no trailing bare expression the
whole block is executed and nothing is auto-displayed. -/
theorem execute_autodisplay_C1 :
    (∀ (ns : Namespace) (fig : List (List ℤ)) (ps : List Stmt) (e : Expr),
       executeCellPieces (Code.ok (ps ++ [Stmt.exprStmt e])) ns fig =
         (match runStmts ps ⟨ns, fig, []⟩ with
          | (st1, some tb) => (st1.ns, st1.fig, [Piece.err tb])
          | (st1, Option.none) =>
            match evalExpr e st1 with
            | (st2, .error tb) => (st2.ns, st2.fig, [Piece.err tb])
            | (st2, .ok v) =>
              ((figStep { st2 with buf := st2.buf ++ displayPieces v }).ns,
               (figStep { st2 with buf := st2.buf ++ displayPieces v }).fig,
               (figStep { st2 with buf := st2.buf ++ displayPieces v }).buf))) ∧
    (∀ rows, renderPiece (Piece.table rows) = dfToHtml rows) ∧
    (∀ s, renderPiece (Piece.val s) = escapeHtml s) ∧
    (displayPieces Value.none = []) ∧
    (∀ (ns : Namespace) (fig : List (List ℤ)) (stmts : List Stmt),
       lastIsExpr stmts = false →
       runCell stmts ⟨ns, fig, []⟩ = runStmts stmts ⟨ns, fig, []⟩ ∧
       (∀ st1, runParsed (Code.ok stmts) ⟨ns, fig, []⟩ = (st1, Option.none) →
         (executeCellPieces (Code.ok stmts) ns fig).2.2.all
           (fun p => ! p.isDisplay) = true)) := by
  refine ⟨?_, fun rows => rfl, fun s => rfl, rfl, ?_⟩
  · intro ns fig ps e
    have hcell := runCell_concat ps e ⟨ns, fig, []⟩
    rcases h1 : runStmts ps ⟨ns, fig, []⟩ with ⟨st1, r1⟩
    cases r1 with
    | some tb =>
        simp only [executeCellPieces, cellBody, runParsed, parse, hcell, h1]
    | none =>
        rcases h2 : evalExpr e st1 with ⟨st2, r2⟩
        cases r2 with
        | error tb =>
            simp only [executeCellPieces, cellBody, runParsed, parse, hcell, h1, h2]
        | ok v =>
            simp only [executeCellPieces, cellBody, runParsed, parse, hcell, h1, h2]
  · intro ns fig stmts hlast
    have hcell : runCell stmts ⟨ns, fig, []⟩ = runStmts stmts ⟨ns, fig, []⟩ := by
      unfold lastIsExpr at hlast
      cases hl : stmts.getLast? with
      | none => simp only [runCell, hl]
      | some s =>
          cases s with
          | assign x e => simp only [runCell, hl]
          | exprStmt e =>
              rw [hl] at hlast
              simp at hlast
    refine ⟨hcell, ?_⟩
    intro st1 hrun
    have hrs : runStmts stmts ⟨ns, fig, []⟩ = (st1, Option.none) := by
      have hrp : runParsed (Code.ok stmts) ⟨ns, fig, []⟩ = runCell stmts ⟨ns, fig, []⟩ := rfl
      rw [hrp, hcell] at hrun
      exact hrun
    have hall : st1.buf.all (fun p => ! p.isDisplay) = true := by
      have := runStmts_buf_all (fun p => ! p.isDisplay) (fun s => rfl) stmts ⟨ns, fig, []⟩
      rw [hrs] at this
      simpa using this
    simp only [executeCellPieces, cellBody, hrun]
    unfold figStep
    by_cases hf : st1.fig = []
    · simp only [if_pos hf]
      exact hall
    · simp only [if_neg hf]
      show (st1.buf ++ [Piece.img st1.fig]).all (fun p => ! p.isDisplay) = true
      rw [List.all_append, hall]
      rfl

/-- Witness for C1 at a block with no trailing bare expression. -/
theorem execute_autodisplay_C1_witness :
    (lastIsExpr [Stmt.assign "x" (Expr.const (Value.int 1))] = false ∧
     runParsed (Code.ok [Stmt.assign "x" (Expr.const (Value.int 1))])
       ⟨initialLocals, [], []⟩ =
       (⟨nsSet initialLocals "x" (Value.int 1), [], []⟩, Option.none)) ∧
    (executeCellPieces (Code.ok [Stmt.assign "x" (Expr.const (Value.int 1))])
        initialLocals []).2.2.all (fun p => ! p.isDisplay) = true :=
  ⟨⟨by decide, by decide⟩,
   (execute_autodisplay_C1.2.2.2.2 initialLocals [] [Stmt.assign "x" (Expr.const (Value.int 1))]
      (by decide)).2 ⟨nsSet initialLocals "x" (Value.int 1), [], []⟩ (by decide)⟩

/-- C8 refutation support: the dispatch at server.py lines 171-174 hands
`execute` to the shared thread pool with no per-session lock, so two
concurrent `run_code` executions of `c = c + 1` against one session may
interleave their namespace read and write.  The schedule in which both
threads read before either writes is a genuine interleaving of the two
thread programs and loses one increment (final counter 1), whereas the
serialized schedule the claim requires yields 2 — which is also what two
sequential `execute` calls on the modelled server produce. -/
theorem run_code_race_C8 :
    (List.Sublist [RaceStep.read1, RaceStep.write1] raceLost ∧
     List.Sublist [RaceStep.read2, RaceStep.write2] raceLost) ∧
    (runRace raceLost raceInit).counter = 1 ∧
    (runRace raceSerial raceInit).counter = 2 ∧
    ((NotebookServer.execute (NotebookServer.execute stC8 "s" incCell).1 "s"
        incCell).1.sessions.lookup "s").map (fun sess => sess.locals.lookup "c") =
      some (some (Value.int 2)) := by
  refine ⟨⟨?_, ?_⟩, by decide, by decide, by decide⟩
  · decide
  · decide

end NotebookLMS
